import Mathlib

/-!
Verification of the Parquet fuzz-corpus generator
(`cpp/src/parquet/arrow/generate_fuzz_corpus.cc`).

The tool builds one example record batch from a seeded random array
generator, validates it, and writes it to sequentially named files in an
output directory.  The Arrow library pieces it calls
(`RandomArrayGenerator`, `RecordBatch::ValidateFull`, `WriteTable`,
filesystem primitives, `std::to_string`) are not part of this source
tree; they are modelled here from the specification, with each such
definition marked `Modelled from the spec`.  Everything else follows the
source file directly.
-/

namespace FuzzCorpus

/-- Source constant `kBatchSize = 1000`. -/
def kBatchSize : Nat := 1000

/-- Source constant `kChunkSize = kBatchSize * 3 / 8`. -/
def kChunkSize : Nat := kBatchSize * 3 / 8

/-- Modelled from the spec: the library `RandomArrayGenerator` (not under
`src/`) is a deterministic pseudo-random generator seeded once; we model
its state as a seed plus a draw counter, so every draw is a pure function
of `(seed, counter)`. -/
structure RngState where
  seed : Nat
  ctr : Nat

/-- Modelled from the spec: the `i`-th raw 64-bit draw after state `g`,
a pure mixing function of seed and counter. -/
def drawAt (g : RngState) (i : Nat) : Nat :=
  ((g.seed + 1) * 6364136223846793005 + (g.ctr + i) * 1442695040888963407 + 99991) % (2 ^ 64)

/-- Advance the generator state by `n` consumed draws. -/
def bump (g : RngState) (n : Nat) : RngState := ⟨g.seed, g.ctr + n⟩

/-- The Arrow logical types appearing in this program's schema. -/
inductive ArrowType where
  | int16
  | float64
  | int64
  | utf8
  | list64
deriving DecidableEq

/-- A generated Arrow array: scalar columns are rows of optional values
(`none` = null); a list column is an offsets array over a flat child. -/
inductive Column where
  | intCol (typ : ArrowType) (rows : List (Option Int))
  | strCol (typ : ArrowType) (rows : List (Option String))
  | listCol (typ : ArrowType) (offsets : List Nat) (child : List (Option Int))

/-- The logical type of a column. -/
def Column.typ : Column → ArrowType
  | .intCol t _ => t
  | .strCol t _ => t
  | .listCol t _ _ => t

/-- Row data of an integer-valued scalar column. -/
def Column.intRows : Column → List (Option Int)
  | .intCol _ rows => rows
  | _ => []

/-- Row data of a string-valued scalar column. -/
def Column.strRows : Column → List (Option String)
  | .strCol _ rows => rows
  | _ => []

/-- Offsets array of a list column. -/
def Column.offsets : Column → List Nat
  | .listCol _ offs _ => offs
  | _ => []

/-- Flat child array of a list column. -/
def Column.child : Column → List (Option Int)
  | .listCol _ _ child => child
  | _ => []

/-- Logical length (row count) of a column. -/
def Column.length : Column → Nat
  | .intCol _ rows => rows.length
  | .strCol _ rows => rows.length
  | .listCol _ offs _ => offs.length - 1

/-- Per-row null mask of a column (list columns are generated without
nulls here: their offsets carry no validity bitmap). -/
def Column.nullMask : Column → List Bool
  | .intCol _ rows => rows.map Option.isNone
  | .strCol _ rows => rows.map Option.isNone
  | .listCol _ _ _ => []

/-- Number of null rows of a column. -/
def Column.nullCount (c : Column) : Nat := c.nullMask.count true

/-- All generated data of a column, for stating reproducibility. -/
def Column.data (c : Column) :
    ArrowType × List (Option Int) × List (Option String) × List Nat × List Bool :=
  (c.typ, c.intRows, c.strRows, c.offsets, c.nullMask)

/-- Modelled from the spec: scalar integer generation — each row is
independently nulled with probability `npm`/1000, otherwise drawn
uniformly from `[lo, hi]`; pure in `(g, parameters)`. -/
def genIntRows (g : RngState) (len : Nat) (lo hi : Int) (npm : Nat) : List (Option Int) :=
  (List.range len).map fun i =>
    if drawAt g (2 * i) % 1000 < npm then none
    else some (lo + Int.ofNat (drawAt g (2 * i + 1) % ((hi - lo).toNat + 1)))

/-- Modelled from the spec: `gen.Int16(len, lo, hi, null_probability)`. -/
def genInt16 (g : RngState) (len : Nat) (lo hi : Int) (npm : Nat) : Column × RngState :=
  (.intCol .int16 (genIntRows g len lo hi npm), bump g (2 * len))

/-- Modelled from the spec: `gen.Int64(len, lo, hi, null_probability)`. -/
def genInt64 (g : RngState) (len : Nat) (lo hi : Int) (npm : Nat) : Column × RngState :=
  (.intCol .int64 (genIntRows g len lo hi npm), bump g (2 * len))

/-- Modelled from the spec: `gen.Float64(len, lo, hi, null_probability)`.
The claims checked here concern only lengths, null placement and
determinism, never floating-point arithmetic, so the drawn values are
represented by their integral draw in `[lo, hi]`. -/
def genFloat64 (g : RngState) (len : Nat) (lo hi : Int) (npm : Nat) : Column × RngState :=
  (.intCol .float64 (genIntRows g len lo hi npm), bump g (2 * len))

/-- Modelled from the spec: bounded-string generation — each row is
independently nulled with probability `npm`/1000, otherwise a string of
length drawn uniformly from `[minLen, maxLen]` with lowercase letters.
Each row consumes a fixed budget of `2 + maxLen` draws. -/
def genStrRows (g : RngState) (len minLen maxLen npm : Nat) : List (Option String) :=
  (List.range len).map fun i =>
    let base := (2 + maxLen) * i
    if drawAt g base % 1000 < npm then none
    else
      let slen := minLen + drawAt g (base + 1) % (maxLen - minLen + 1)
      some (String.mk ((List.range slen).map fun j => Char.ofNat (97 + drawAt g (base + 2 + j) % 26)))

/-- Modelled from the spec: `gen.String(len, minLen, maxLen, null_probability)`. -/
def genString (g : RngState) (len minLen maxLen npm : Nat) : Column × RngState :=
  (.strCol .utf8 (genStrRows g len minLen maxLen npm), bump g ((2 + maxLen) * len))

/-- Modelled from the spec: offsets generation — starting at `lo`, each
next offset adds a bounded random increment, clamped to the child length
`hi`, yielding `n` monotonically non-decreasing offsets bounded by `hi`. -/
def offsAux (g : RngState) (hi : Nat) : Nat → Nat → Nat → List Nat
  | 0, _, _ => []
  | n + 1, i, acc => min hi acc :: offsAux g hi n (i + 1) (acc + drawAt g i % 32)

/-- Modelled from the spec: `gen.Offsets(size, lo, hi)` produces `size`
non-decreasing offsets, the first equal to `lo`, all bounded by `hi`. -/
def genOffsets (g : RngState) (size lo hi : Nat) : List Nat × RngState :=
  (offsAux g hi size 0 lo, bump g size)

/-- Source `ListArray::FromArrays(offsets, values)`: assemble the list
column from the offsets array and the flat child values. -/
def listFromArrays (offsets : List Nat) (child : Column) : Column :=
  .listCol .list64 offsets child.intRows

/-- Modelled from the spec: `MakeArrayFromScalar(Int16Scalar v, len)` —
every row holds the identical value, zero nulls. -/
def makeArrayFromScalar (v : Int) (len : Nat) : Column :=
  .intCol .int16 (List.replicate len (some v))

/-- A schema field: name and logical type. -/
structure Field where
  name : String
  typ : ArrowType

/-- A logical schema: ordered fields plus key/value metadata. -/
structure Schema where
  fields : List Field
  metadata : List (String × String)

/-- A record batch: schema, row count and columns. -/
structure RecordBatch where
  schema : Schema
  numRows : Nat
  cols : List Column

/-- The `i`-th column of a batch (default an empty int16 column). -/
def RecordBatch.colAt (b : RecordBatch) (i : Nat) : Column :=
  b.cols.getD i (.intCol .int16 [])

/-- Source `ExampleBatch1`, parameterised by the generator seed (the
source seeds `RandomArrayGenerator gen(42)`); the generator state is
threaded through the calls in source order. -/
def ExampleBatch1Seeded (seed : Nat) : RecordBatch :=
  let g0 : RngState := ⟨seed, 0⟩
  let pa := genInt16 g0 kBatchSize (-10000) 10000 200
  let pb := genFloat64 pa.2 kBatchSize (-(10 ^ 10)) (10 ^ 10) 0
  let pc := genString pb.2 kBatchSize 0 3 200
  let pv := genInt64 pc.2 (kBatchSize * 10) (-10000) 10000 200
  let po := genOffsets pv.2 (kBatchSize + 1) 0 pv.1.intRows.length
  let d := listFromArrays po.1 pv.1
  let e := makeArrayFromScalar 42 kBatchSize
  let pn := genString po.2 kBatchSize 0 30 200
  let a := pa.1
  let b := pb.1
  let c := pc.1
  let no_dict := pn.1
  { schema :=
      { fields :=
          [⟨"a", a.typ⟩, ⟨"b", b.typ⟩, ⟨"c", c.typ⟩,
           ⟨"d", d.typ⟩, ⟨"e", e.typ⟩, ⟨"no_dict", no_dict.typ⟩],
        metadata := [("key1", "value1"), ("key2", "")] },
    numRows := kBatchSize,
    cols := [a, b, c, d, e, no_dict] }

/-- Source `ExampleBatch1()` with the fixed seed 42. -/
def ExampleBatch1 : RecordBatch := ExampleBatch1Seeded 42

/-- Source `Batches()`: the single-scenario list. -/
def Batches : List RecordBatch := [ExampleBatch1]

/-- A scenario identifier; the source has exactly one scenario,
`ExampleBatch1`. -/
inductive Scenario where
  | example1

/-- Generate one scenario's batch from a seed. -/
def genScenario (seed : Nat) : Scenario → RecordBatch
  | .example1 => ExampleBatch1Seeded seed

/-- Generate the batches of a run from a seed and a scenario list. -/
def mkBatches (seed : Nat) (scens : List Scenario) : List RecordBatch :=
  scens.map (genScenario seed)

/-- Boolean non-decreasing check on a list of naturals. -/
def nondecB : List Nat → Bool
  | [] => true
  | [_] => true
  | a :: b :: t => decide (a ≤ b) && nondecB (b :: t)

/-- Modelled from the spec: `RecordBatch::ValidateFull` — column count
matches field count, every column length equals the batch row count, and
every list column has non-empty offsets that start at 0, are
non-decreasing, and end at most at the child length. -/
def RecordBatch.ValidateFull (b : RecordBatch) : Bool :=
  decide (b.cols.length = b.schema.fields.length) &&
  b.cols.all (fun c => decide (c.length = b.numRows)) &&
  b.cols.all (fun c =>
    match c with
    | .listCol _ offs child =>
        decide (offs ≠ []) && decide (offs.headD 0 = 0) && nondecB offs &&
        decide (offs.getLastD 0 ≤ child.length)
    | _ => true)

/-- Source `WriterProperties`: the only configuration the program sets is
the list of columns with dictionary encoding disabled. -/
structure WriterProperties where
  noDict : List String

/-- Source `GetWriterProperties()`: `builder.disable_dictionary("no_dict")`. -/
def GetWriterProperties : WriterProperties := ⟨["no_dict"]⟩

/-- Modelled from the spec: decimal rendering of a natural number
(`std::to_string`). -/
def to_string (n : Nat) : String :=
  if n = 0 then "0" else String.mk (((Nat.digits 10 n).reverse).map Nat.digitChar)

/-- Source `sample_name` lambda: fixed text `pq-table-` followed by the
sample number. -/
def sample_name (i : Nat) : String := "pq-table-" ++ to_string i

/-- Modelled from the spec: `WriteTable` splits the table into row groups
of at most `chunk` rows, in order, until the rows are exhausted (fuel
recursion bounded by the total row count). -/
def rowGroupSizesAux : Nat → Nat → Nat → List Nat
  | 0, _, _ => []
  | _ + 1, _, 0 => []
  | fuel + 1, chunk, total + 1 =>
      min chunk (total + 1) :: rowGroupSizesAux fuel chunk (total + 1 - chunk)

/-- Row-group sizes produced when writing `total` rows with chunk size
`chunk`. -/
def rowGroupSizes (chunk total : Nat) : List Nat := rowGroupSizesAux total chunk total

/-- Modelled from the spec: the outcomes of the external, fallible steps
(directory creation, batch generation, and per-sample open/write/close)
as an abstract environment, indexed by sample number where relevant. -/
structure Env where
  createDirOk : Bool
  genOk : Bool
  openOk : Nat → Bool
  writeOk : Nat → Bool
  closeOk : Nat → Bool

/-- The environment in which every external step succeeds. -/
def allOkEnv : Env := ⟨true, true, fun _ => true, fun _ => true, fun _ => true⟩

/-- State of one output file on disk: opened but empty, or holding the
written row groups. -/
inductive FileState where
  | empty
  | written (groups : List Nat)

/-- One file on disk: its name and state. -/
structure DiskFile where
  name : String
  state : FileState

/-- The failure cases of a run, mirroring the fallible steps of
`DoMain` (directory creation, generation, and the per-sample
validate/open/write/close steps). -/
inductive RunErr where
  | dirErr
  | genErr
  | validateErr (i : Nat)
  | openErr (i : Nat)
  | writeErr (i : Nat)
  | closeErr (i : Nat)

/-- Modelled from the spec: a short descriptive message per failure
(`Status::ToString`). -/
def errMsg : RunErr → String
  | .dirErr => "IOError: cannot create output directory"
  | .genErr => "Error: batch generation failed"
  | .validateErr i => "Invalid: batch validation failed at sample " ++ to_string i
  | .openErr i => "IOError: cannot open sample " ++ to_string i
  | .writeErr i => "IOError: write failed at sample " ++ to_string i
  | .closeErr i => "IOError: close failed at sample " ++ to_string i

/-- Result of processing one scenario: a completed file, or a failure
with the partial file (if any) it left on disk. -/
inductive StepResult where
  | ok (f : DiskFile)
  | fail (e : RunErr) (f : Option DiskFile)

/-- One iteration of the `DoMain` loop for sample `i` and batch `b`:
validate the batch, open the sample file, write the table in row groups
of `kChunkSize`, close the file; the first failing step aborts the
iteration. -/
def processOne (env : Env) (i : Nat) (b : RecordBatch) : StepResult :=
  if b.ValidateFull = false then .fail (.validateErr i) none
  else if env.openOk i = false then .fail (.openErr i) none
  else if env.writeOk i = false then .fail (.writeErr i) (some ⟨sample_name i, .empty⟩)
  else if env.closeOk i = false then
    .fail (.closeErr i) (some ⟨sample_name i, .written (rowGroupSizes kChunkSize b.numRows)⟩)
  else .ok ⟨sample_name i, .written (rowGroupSizes kChunkSize b.numRows)⟩

/-- The `DoMain` scenario loop: process the batches in order, numbering
samples from `i`, appending each produced file to `disk`; the first
failure stops the loop and is returned, the disk written so far kept. -/
def runBatches (env : Env) : Nat → List DiskFile → List RecordBatch →
    List DiskFile × Except RunErr Unit
  | _, disk, [] => (disk, .ok ())
  | i, disk, b :: rest =>
    match processOne env i b with
    | .ok f => runBatches env (i + 1) (disk ++ [f]) rest
    | .fail e f => (disk ++ f.toList, .error e)

/-- The observable outcome of `DoMain`: whether the output directory was
created, the files on disk, and the returned status. -/
structure RunOutcome where
  dirCreated : Bool
  disk : List DiskFile
  result : Except RunErr Unit

/-- Source `DoMain(out_dir)`: create the output directory, generate the
batches, then run the loop with the sample counter starting at 1. -/
def DoMain (env : Env) (batches : List RecordBatch) : RunOutcome :=
  if env.createDirOk = false then ⟨false, [], .error .dirErr⟩
  else if env.genOk = false then ⟨true, [], .error .genErr⟩
  else
    let r := runBatches env 1 [] batches
    ⟨true, r.1, r.2⟩

/-- The usage message of `Usage()`. -/
def usageMsg : String := "Usage: parquet-arrow-generate-fuzz-corpus <output directory>"

/-- The observable outcome of `Main`: exit code, diagnostics written to
the error stream, and the filesystem effects. -/
structure MainOut where
  exitCode : Nat
  errStream : List String
  dirCreated : Bool
  disk : List DiskFile

/-- Source `Main(argc, argv)`: with any argument count other than 2,
print usage and exit 2 before any filesystem effect; otherwise run
`DoMain` and exit 0 on success or 1 on failure with the status message
printed. -/
def Main (argc : Nat) (env : Env) (batches : List RecordBatch) : MainOut :=
  if argc ≠ 2 then ⟨2, [usageMsg], false, []⟩
  else
    match DoMain env batches with
    | ⟨created, disk, .ok _⟩ => ⟨0, [], created, disk⟩
    | ⟨created, disk, .error e⟩ => ⟨1, [errMsg e], created, disk⟩

/-! ### Structural lemmas about the generators -/

@[simp]
theorem genIntRows_length (g : RngState) (len : Nat) (lo hi : Int) (npm : Nat) :
    (genIntRows g len lo hi npm).length = len := by
  simp [genIntRows]

@[simp]
theorem genStrRows_length (g : RngState) (len minLen maxLen npm : Nat) :
    (genStrRows g len minLen maxLen npm).length = len := by
  simp [genStrRows]

@[simp]
theorem offsAux_length (g : RngState) (hi : Nat) :
    ∀ n i acc, (offsAux g hi n i acc).length = n := by
  intro n
  induction n with
  | zero => intro i acc; simp [offsAux]
  | succ m ih => intro i acc; simp [offsAux, ih]

theorem offsAux_headD (g : RngState) (hi n i acc d : Nat) :
    (offsAux g hi (n + 1) i acc).headD d = min hi acc := by
  simp [offsAux]

theorem nondecB_cons (x : Nat) (l : List Nat) (hl : nondecB l = true)
    (hx : x ≤ l.headD x) : nondecB (x :: l) = true := by
  cases l with
  | nil => simp [nondecB]
  | cons a t =>
    simp only [List.headD_cons] at hx
    simp [nondecB, hx, hl]

theorem offsAux_nondec (g : RngState) (hi : Nat) :
    ∀ n i acc, nondecB (offsAux g hi n i acc) = true := by
  intro n
  induction n with
  | zero => intro i acc; simp [offsAux, nondecB]
  | succ m ih =>
    intro i acc
    rw [offsAux]
    apply nondecB_cons _ _ (ih (i + 1) (acc + drawAt g i % 32))
    cases m with
    | zero => simp [offsAux]
    | succ k =>
      rw [offsAux_headD]
      exact min_le_min (le_refl hi) (Nat.le_add_right acc _)

theorem offsAux_mem_le (g : RngState) (hi : Nat) :
    ∀ n i acc, ∀ x ∈ offsAux g hi n i acc, x ≤ hi := by
  intro n
  induction n with
  | zero => intro i acc x hx; simp [offsAux] at hx
  | succ m ih =>
    intro i acc x hx
    rw [offsAux] at hx
    rcases List.mem_cons.1 hx with h | h
    · exact h ▸ Nat.min_le_left hi acc
    · exact ih _ _ x h

theorem getLastD_le_of_mem_le (hi : Nat) :
    ∀ (l : List Nat) (d : Nat), d ≤ hi → (∀ x ∈ l, x ≤ hi) → l.getLastD d ≤ hi := by
  intro l
  induction l with
  | nil => intro d hd _; simpa using hd
  | cons a t ih =>
    intro d _ hmem
    rw [List.getLastD_cons]
    exact ih a (hmem a (List.mem_cons_self a t)) fun x hx => hmem x (List.mem_cons_of_mem a hx)

theorem offsAux_getLastD_le (g : RngState) (hi n i acc : Nat) :
    (offsAux g hi n i acc).getLastD 0 ≤ hi :=
  getLastD_le_of_mem_le hi _ 0 (Nat.zero_le hi) (offsAux_mem_le g hi n i acc)

theorem offsAux_ne_nil (g : RngState) (hi n i acc : Nat) :
    offsAux g hi (n + 1) i acc ≠ [] := by
  rw [offsAux]; exact List.cons_ne_nil _ _

/-- The example batch passes full validation, for every seed. -/
theorem ExampleBatch1Seeded_validate (seed : Nat) :
    (ExampleBatch1Seeded seed).ValidateFull = true := by
  simp only [ExampleBatch1Seeded, genInt16, genFloat64, genInt64, genString, genOffsets,
    listFromArrays, makeArrayFromScalar, Column.intRows, RecordBatch.ValidateFull,
    List.all_cons, List.all_nil, Column.length, List.length_cons, List.length_nil,
    Bool.and_eq_true, decide_eq_true_eq, genIntRows_length, genStrRows_length,
    offsAux_length, List.length_replicate, Nat.add_sub_cancel, offsAux_ne_nil,
    offsAux_headD, Nat.min_zero, offsAux_nondec, offsAux_getLastD_le]
  simp [offsAux_ne_nil _ _ _ _ _]

/-! ### Injectivity of the sample naming scheme -/

theorem digitChar_injOn : ∀ a < 10, ∀ b < 10, Nat.digitChar a = Nat.digitChar b → a = b := by
  decide

theorem map_digitChar_inj :
    ∀ l1 l2 : List Nat, (∀ x ∈ l1, x < 10) → (∀ x ∈ l2, x < 10) →
      l1.map Nat.digitChar = l2.map Nat.digitChar → l1 = l2 := by
  intro l1
  induction l1 with
  | nil =>
    intro l2 _ _ h
    cases l2 with
    | nil => rfl
    | cons b u => simp at h
  | cons a t ih =>
    intro l2 h1 h2 h
    cases l2 with
    | nil => simp at h
    | cons b u =>
      simp only [List.map_cons, List.cons.injEq] at h
      have ha : a = b :=
        digitChar_injOn a (h1 a (List.mem_cons_self a t)) b (h2 b (List.mem_cons_self b u)) h.1
      have ht : t = u :=
        ih u (fun x hx => h1 x (List.mem_cons_of_mem a hx))
          (fun x hx => h2 x (List.mem_cons_of_mem b hx)) h.2
      rw [ha, ht]

theorem to_string_inj (m n : Nat) (hm : 0 < m) (hn : 0 < n)
    (h : to_string m = to_string n) : m = n := by
  rw [to_string, to_string, if_neg (Nat.pos_iff_ne_zero.1 hm),
    if_neg (Nat.pos_iff_ne_zero.1 hn)] at h
  have hdata : ((Nat.digits 10 m).reverse).map Nat.digitChar
      = ((Nat.digits 10 n).reverse).map Nat.digitChar := congrArg String.data h
  have hrev : (Nat.digits 10 m).reverse = (Nat.digits 10 n).reverse :=
    map_digitChar_inj _ _
      (fun x hx => Nat.digits_lt_base (by norm_num) (List.mem_reverse.1 hx))
      (fun x hx => Nat.digits_lt_base (by norm_num) (List.mem_reverse.1 hx)) hdata
  have hdig : Nat.digits 10 m = Nat.digits 10 n := List.reverse_injective hrev
  have hofd := congrArg (Nat.ofDigits 10) hdig
  rwa [Nat.ofDigits_digits, Nat.ofDigits_digits] at hofd

theorem string_append_cancel (p s t : String) (h : p ++ s = p ++ t) : s = t := by
  have hd : (p ++ s).data = (p ++ t).data := by rw [h]
  simp only [String.data_append] at hd
  have h2 : s.data = t.data := List.append_cancel_left hd
  cases s; cases t; exact congrArg String.mk h2

theorem sample_name_inj (m n : Nat) (hm : 0 < m) (hn : 0 < n)
    (h : sample_name m = sample_name n) : m = n :=
  to_string_inj m n hm hn (string_append_cancel _ _ _ h)

/-! ### The run loop -/

/-- The disk contents produced by a fully successful loop over validated
batches: one completed file per batch, named sequentially. -/
theorem runBatches_allOk :
    ∀ (bs : List RecordBatch), (∀ b ∈ bs, b.ValidateFull = true) →
    ∀ (i : Nat) (disk : List DiskFile),
      runBatches allOkEnv i disk bs =
        (disk ++ (bs.enumFrom i).map
          (fun p => ⟨sample_name p.1, .written (rowGroupSizes kChunkSize p.2.numRows)⟩),
         .ok ()) := by
  intro bs
  induction bs with
  | nil => intro _ i disk; simp [runBatches]
  | cons b rest ih =>
    intro hv i disk
    have hb : b.ValidateFull = true := hv b (List.mem_cons_self b rest)
    have hp : processOne allOkEnv i b
        = .ok ⟨sample_name i, .written (rowGroupSizes kChunkSize b.numRows)⟩ := by
      simp [processOne, hb, allOkEnv]
    rw [runBatches, hp]
    dsimp only
    rw [ih (fun x hx => hv x (List.mem_cons_of_mem b hx)) (i + 1)]
    simp [List.enumFrom_cons]

/-! ### Helper facts for the claims -/

theorem sample_name_one : sample_name 1 = "pq-table-1" := by
  rw [sample_name, show to_string 1 = "1" by simp [to_string, Nat.digits_def', Nat.digitChar]]
  decide

theorem rowGroupSizes_example : rowGroupSizes kChunkSize kBatchSize = [375, 375, 250] := by
  decide

theorem getD_replicate_of_lt {α : Type} (x d : α) :
    ∀ (len i : Nat), i < len → (List.replicate len x).getD i d = x := by
  intro len
  induction len with
  | zero => intro i h; exact absurd h (Nat.not_lt_zero i)
  | succ m ih =>
    intro i h
    cases i with
    | zero => simp [List.replicate]
    | succ j =>
      rw [List.replicate, List.getD_cons_succ]
      exact ih j (Nat.lt_of_succ_lt_succ h)

theorem Batches_validate : ∀ b ∈ Batches, b.ValidateFull = true := by
  intro b hb
  simp only [Batches, List.mem_singleton] at hb
  subst hb
  exact ExampleBatch1Seeded_validate 42

/-- A structurally invalid batch: one schema field but no columns. -/
def badBatch : RecordBatch := ⟨⟨[⟨"a", .int16⟩], []⟩, 0, []⟩

/-- An environment whose directory-creation step fails. -/
def failDirEnv : Env := ⟨false, true, fun _ => true, fun _ => true, fun _ => true⟩

/-! ### The claims -/

/-- Claim C1: for the canonical run (seed 42, batch of 1000 rows, the six
specified columns, chunk size 375) the program produces exactly one output
file whose logical schema has 6 fields and two metadata entries (one with
a non-empty value, one with an empty value), with total row count 1000
written in 3 row groups of 375, 375 and 250 rows; the chunk-size constant
equals 1000 * 3 / 8 = 375. -/
theorem spec_c1_canonical_run :
    kChunkSize = kBatchSize * 3 / 8 ∧ kChunkSize = 375 ∧ kBatchSize = 1000 ∧
    ExampleBatch1.schema.fields.length = 6 ∧
    ExampleBatch1.schema.metadata = [("key1", "value1"), ("key2", "")] ∧
    (ExampleBatch1.schema.metadata.filter (fun p => p.2 ≠ "")).length = 1 ∧
    (ExampleBatch1.schema.metadata.filter (fun p => p.2 = "")).length = 1 ∧
    ExampleBatch1.numRows = 1000 ∧
    rowGroupSizes kChunkSize kBatchSize = [375, 375, 250] ∧
    DoMain allOkEnv Batches = ⟨true, [⟨"pq-table-1", .written [375, 375, 250]⟩], .ok ()⟩ := by
  refine ⟨rfl, by decide, rfl, rfl, rfl, by decide, by decide, rfl, rowGroupSizes_example, ?_⟩
  have hrun := runBatches_allOk Batches Batches_validate 1 []
  simp only [allOkEnv] at hrun
  simp only [DoMain, allOkEnv, Bool.true_eq_false, if_false, hrun]
  simp [Batches, List.enumFrom_cons, sample_name_one,
    show ExampleBatch1.numRows = kBatchSize from rfl, rowGroupSizes_example]

/-- Claim C2: two runs with the same seed and the same scenario list
produce identical column data — same values, same null placement, same
list offsets (generation is a pure function of the seed). -/
theorem spec_c2_determinism (s1 s2 : Nat) (l1 l2 : List Scenario)
    (hs : s1 = s2) (hl : l1 = l2) :
    (mkBatches s1 l1).map (fun b => b.cols.map Column.data)
      = (mkBatches s2 l2).map (fun b => b.cols.map Column.data) ∧
    mkBatches s1 l1 = mkBatches s2 l2 := by
  subst hs; subst hl; exact ⟨rfl, rfl⟩

theorem spec_c2_determinism_witness :
    (mkBatches 42 [Scenario.example1]).map (fun b => b.cols.map Column.data)
      = (mkBatches 42 [Scenario.example1]).map (fun b => b.cols.map Column.data) :=
  (spec_c2_determinism 42 42 [Scenario.example1] [Scenario.example1] rfl rfl).1

/-- Claim C3: full structural validation runs before serialization, and
when validation reports a violation the batch is never handed to the
writer — the disk is unchanged and the loop stops with the validation
error, so neither this batch nor any later one is written. -/
theorem spec_c3_validation_gate (env : Env) (i : Nat) (disk : List DiskFile)
    (b : RecordBatch) (rest : List RecordBatch) (h : b.ValidateFull = false) :
    runBatches env i disk (b :: rest) = (disk, .error (.validateErr i)) := by
  have hp : processOne env i b = .fail (.validateErr i) none := by
    simp [processOne, h]
  rw [runBatches, hp]
  simp [Option.toList]

theorem spec_c3_validation_gate_witness :
    runBatches allOkEnv 1 [] [badBatch] = ([], .error (.validateErr 1)) :=
  spec_c3_validation_gate allOkEnv 1 [] badBatch [] (by decide)

/-- Claim C4: the generated nested-list column has a flat child array of
length 10 times the row count, and its offsets array has length
row count + 1, is non-decreasing, starts at 0 and ends at most at the
child length. -/
theorem spec_c4_list_invariants :
    (ExampleBatch1.colAt 3).child.length = 10 * kBatchSize ∧
    (ExampleBatch1.colAt 3).offsets.length = kBatchSize + 1 ∧
    nondecB (ExampleBatch1.colAt 3).offsets = true ∧
    (ExampleBatch1.colAt 3).offsets.headD 0 = 0 ∧
    (ExampleBatch1.colAt 3).offsets.getLastD 0 ≤ (ExampleBatch1.colAt 3).child.length := by
  simp only [ExampleBatch1, ExampleBatch1Seeded, genInt16, genFloat64, genInt64, genString,
    genOffsets, listFromArrays, makeArrayFromScalar, Column.intRows, RecordBatch.colAt,
    List.getD_cons_succ, List.getD_cons_zero, Column.child, Column.offsets]
  refine ⟨by simp [Nat.mul_comm], by simp, offsAux_nondec _ _ _ _ _, ?_, ?_⟩
  · rw [offsAux_headD]; exact Nat.min_zero _
  · simp only [genIntRows_length]
    exact offsAux_getLastD_le _ _ _ _ _

/-- Claim C5: a constant-generated column holds the identical fixed value
in every row and contains zero nulls; the batch's column `e` is exactly
the constant int16 column of value 42. -/
theorem spec_c5_constant_column :
    (∀ (v : Int) (len i : Nat), i < len →
      (makeArrayFromScalar v len).intRows.getD i none = some v) ∧
    (∀ (v : Int) (len : Nat), (makeArrayFromScalar v len).nullCount = 0) ∧
    ExampleBatch1.colAt 4 = makeArrayFromScalar 42 kBatchSize := by
  refine ⟨?_, ?_, rfl⟩
  · intro v len i h
    rw [makeArrayFromScalar, Column.intRows]
    exact getD_replicate_of_lt (some v) none len i h
  · intro v len
    rw [Column.nullCount, makeArrayFromScalar, Column.nullMask, List.map_replicate]
    induction len with
    | zero => rfl
    | succ m ih => rw [List.replicate, List.count_cons]; simpa using ih

theorem spec_c5_constant_column_witness :
    (0 : Nat) < kBatchSize ∧
    (makeArrayFromScalar 42 kBatchSize).intRows.getD 0 none = some 42 :=
  ⟨by decide, spec_c5_constant_column.1 42 kBatchSize 0 (by decide)⟩

/-- Claim C6: within a run, output files are named `pq-table-` followed by
the 1-based sequence number, the counter advancing once per scenario in
order, and no filename is reused within the run. -/
theorem spec_c6_filenames (bs : List RecordBatch) (hv : ∀ b ∈ bs, b.ValidateFull = true) :
    (runBatches allOkEnv 1 [] bs).1.map DiskFile.name
      = (List.range' 1 bs.length).map sample_name ∧
    ((runBatches allOkEnv 1 [] bs).1.map DiskFile.name).Nodup := by
  rw [runBatches_allOk bs hv 1 []]
  have hnames : ((List.enumFrom 1 bs).map
      (fun p => (⟨sample_name p.1, .written (rowGroupSizes kChunkSize p.2.numRows)⟩ : DiskFile))).map
        DiskFile.name = (List.range' 1 bs.length).map sample_name := by
    rw [List.map_map]
    have : (DiskFile.name ∘ fun p : Nat × RecordBatch =>
        (⟨sample_name p.1, .written (rowGroupSizes kChunkSize p.2.numRows)⟩ : DiskFile))
        = sample_name ∘ Prod.fst := rfl
    rw [this, ← List.map_map, List.enumFrom_map_fst]
  constructor
  · simpa using hnames
  · have h2 : ((List.range' 1 bs.length).map sample_name).Nodup := by
      refine List.Nodup.map_on ?_ (List.nodup_range' _ _)
      intro x hx y hy hxy
      have hx1 : 1 ≤ x := (List.mem_range'_1.1 hx).1
      have hy1 : 1 ≤ y := (List.mem_range'_1.1 hy).1
      exact sample_name_inj x y hx1 hy1 hxy
    simpa [hnames] using h2

theorem spec_c6_filenames_witness :
    (runBatches allOkEnv 1 [] []).1.map DiskFile.name
      = (List.range' 1 ([] : List RecordBatch).length).map sample_name :=
  (spec_c6_filenames [] (by simp)).1

/-- Claim C7: the exit code is 0 on success, 1 on any runtime failure
(with a descriptive message on the error stream), and 2 when the argument
count is not exactly one positional argument, with a usage message on the
error stream. -/
theorem spec_c7_exit_codes (argc : Nat) (env : Env) (bs : List RecordBatch) :
    (argc ≠ 2 → Main argc env bs = ⟨2, [usageMsg], false, []⟩) ∧
    (argc = 2 → (DoMain env bs).result = .ok () →
      (Main argc env bs).exitCode = 0 ∧ (Main argc env bs).errStream = []) ∧
    (argc = 2 → ∀ e, (DoMain env bs).result = .error e →
      (Main argc env bs).exitCode = 1 ∧ (Main argc env bs).errStream = [errMsg e]) := by
  refine ⟨?_, ?_, ?_⟩
  · intro h; simp [Main, h]
  · intro h hok
    subst h
    rcases hdo : DoMain env bs with ⟨created, disk, res⟩
    rw [hdo] at hok
    cases res with
    | ok u => simp [Main, hdo]
    | error e => simp at hok
  · intro h e herr
    subst h
    rcases hdo : DoMain env bs with ⟨created, disk, res⟩
    rw [hdo] at herr
    cases res with
    | ok u => simp at herr
    | error e2 =>
      simp at herr
      subst herr
      simp [Main, hdo]

theorem spec_c7_exit_codes_witness :
    Main 3 allOkEnv [] = ⟨2, [usageMsg], false, []⟩ :=
  (spec_c7_exit_codes 3 allOkEnv []).1 (by decide)

/-- Claim C8: the first failure (directory creation, generation, or any
per-sample validate/open/write/close step) aborts the run immediately
with no further scenario processed, the error propagates, and files
already on disk are left unchanged (the result only appends the failing
sample's partial file, if any, to the existing disk). -/
theorem spec_c8_fail_fast :
    (∀ (env : Env) (bs : List RecordBatch), env.createDirOk = false →
      DoMain env bs = ⟨false, [], .error .dirErr⟩) ∧
    (∀ (env : Env) (bs : List RecordBatch), env.createDirOk = true → env.genOk = false →
      DoMain env bs = ⟨true, [], .error .genErr⟩) ∧
    (∀ (env : Env) (i : Nat) (disk : List DiskFile) (b : RecordBatch)
      (rest : List RecordBatch) (e : RunErr) (f : Option DiskFile),
      processOne env i b = .fail e f →
      runBatches env i disk (b :: rest) = (disk ++ f.toList, .error e)) := by
  refine ⟨?_, ?_, ?_⟩
  · intro env bs h; simp [DoMain, h]
  · intro env bs h1 h2; simp [DoMain, h1, h2]
  · intro env i disk b rest e f hp
    rw [runBatches, hp]

theorem spec_c8_fail_fast_witness :
    DoMain failDirEnv [] = ⟨false, [], .error .dirErr⟩ :=
  spec_c8_fail_fast.1 failDirEnv [] rfl

/-- Claim C9: the writer configuration disables dictionary encoding for
exactly the one column name `no_dict`, which is a field of the generated
schema, and no other schema column is affected. -/
theorem spec_c9_no_dict :
    GetWriterProperties.noDict = ["no_dict"] ∧
    ExampleBatch1.schema.fields.map Field.name = ["a", "b", "c", "d", "e", "no_dict"] ∧
    (ExampleBatch1.schema.fields.map Field.name).filter
      (fun n => GetWriterProperties.noDict.contains n) = ["no_dict"] := by
  exact ⟨rfl, rfl, by decide⟩

/-- Claim C10: with a wrong argument count the program exits with the
usage code before any filesystem effect — no directory is created and no
file is opened or written. -/
theorem spec_c10_usage_no_effects (argc : Nat) (env : Env) (bs : List RecordBatch)
    (h : argc ≠ 2) :
    (Main argc env bs).exitCode = 2 ∧ (Main argc env bs).errStream = [usageMsg] ∧
    (Main argc env bs).dirCreated = false ∧ (Main argc env bs).disk = [] := by
  simp [Main, h]

theorem spec_c10_usage_no_effects_witness :
    (Main 0 allOkEnv []).exitCode = 2 ∧ (Main 0 allOkEnv []).errStream = [usageMsg] ∧
    (Main 0 allOkEnv []).dirCreated = false ∧ (Main 0 allOkEnv []).disk = [] :=
  spec_c10_usage_no_effects 0 allOkEnv [] (by decide)

end FuzzCorpus
